import Mathlib

/-!
Verification of the SoundBoard Manager core: the per-application audio
session directory (`backend.py`, class `AudioManager` and its post-hoc
attached methods) and the multimedia-key state machine
(`media_wheel.py`, class `MediaWheelController`).

Modelling conventions:
* Native volume-control handles (pycaw `SimpleAudioVolume` objects) are
  modelled by the `Control` structure: a scalar level in the rationals, a
  mute flag, and two failure flags that say whether the native
  `SetMasterVolume` / `SetMute` calls raise.  A raising call is swallowed
  by the Python code (bare `except: pass`), so in the model it leaves the
  control unchanged.
* Python floats are modelled as rationals; Python `int()` conversion is
  `pyInt` (truncation toward zero).
* `time.time()` values are passed explicitly as rationals (`now`), and
  the OS master-volume reads that the handler performs are supplied by an
  explicit `Env` record (one value per read site).
* Emitted OS side effects (master-volume restore writes, master nudges,
  master-mute toggles) are returned in the `HandleResult` record.
-/

namespace SoundBoard

/-- Python `int()` applied to a rational: truncation toward zero. -/
def pyInt (q : ℚ) : Int := if 0 ≤ q then ⌊q⌋ else ⌈q⌉

/-- Model of one native volume-control handle (`SimpleAudioVolume`).
`setVolumeFails` / `setMuteFails` say whether the corresponding native
setter raises; the Python call sites swallow such errors per control. -/
structure Control where
  level : ℚ
  muted : Bool
  setVolumeFails : Bool
  setMuteFails : Bool
deriving DecidableEq

/-- Native `GetMasterVolume` read. -/
def Control.GetMasterVolume (c : Control) : ℚ := c.level

/-- Native `GetMute` read. -/
def Control.GetMute (c : Control) : Bool := c.muted

/-- Native `SetMasterVolume`, with the caller's `except: pass` folded in:
a failing control is left unchanged. -/
def Control.SetMasterVolume (c : Control) (v : ℚ) : Control :=
  if c.setVolumeFails then c else { c with level := v }

/-- Native `SetMute`, with the caller's `except: pass` folded in. -/
def Control.SetMute (c : Control) (m : Bool) : Control :=
  if c.setMuteFails then c else { c with muted := m }

def dummyControl : Control :=
  { level := 0, muted := false, setVolumeFails := false, setMuteFails := false }

/-- One entry of `AudioManager.sessions`: the session dict built by
`update_sessions` (the `_mutes` helper list is popped before the dict is
stored, so it is not a field here). -/
structure Session where
  name : String
  icon : String
  volume : Int
  pid : Nat
  isMuted : Bool
  controls : List Control
deriving DecidableEq

def dummySession : Session :=
  { name := "", icon := "", volume := 0, pid := 0, isMuted := false, controls := [] }

/-- State of `backend.AudioManager`. -/
structure AudioManager where
  sessions : List Session
  selected_index : Nat
  navigation_mode : Bool
deriving DecidableEq

/-- One element of the `sessions` list of `get_state`. -/
structure DisplaySession where
  name : String
  icon : String
  volume : Int
  isSelected : Bool
  isMuted : Bool
deriving DecidableEq

/-- The dict returned by `AudioManager.get_state`. -/
structure DisplayState where
  sessions : List DisplaySession
  selectedIndex : Nat
  navigationMode : Bool
deriving DecidableEq

/-- `AudioManager.get_state` from backend.py. -/
def AudioManager.get_state (m : AudioManager) : DisplayState :=
  { sessions := m.sessions.mapIdx (fun i s =>
      { name := s.name, icon := s.icon, volume := s.volume,
        isSelected := i == m.selected_index, isMuted := s.isMuted }),
    selectedIndex := m.selected_index,
    navigationMode := m.navigation_mode }

/-- One native session as produced by `AudioUtilities.GetAllSessions()`,
together with the two resolution results the refresh uses for it.
`hasProcessName` models the `session.Process and session.Process.name()`
truthiness test; `control` is `session.SimpleAudioVolume` (none when
falsy); `resolvedName` is the clean name obtained from the name cache or
`get_app_name_clean` (the cache is deterministic per executable path, so
it is abstracted to the resolved result); `icon` is the result of the
icon cache / `get_app_icon_base64` (none when falsy). -/
structure NativeSession where
  hasProcessName : Bool
  pid : Nat
  control : Option Control
  resolvedName : String
  icon : Option String
deriving DecidableEq

/-- An entry of the `sessions_dict` accumulator inside `update_sessions`,
including the `_mutes` helper list. -/
structure SEntry where
  name : String
  icon : String
  volume : Int
  pid : Nat
  isMuted : Bool
  controls : List Control
  mutes : List Bool
deriving DecidableEq

/-- The merged volume expression of `update_sessions`:
`int(sum(vc.GetMasterVolume() * 100 for vc in controls) / len(controls))`. -/
def volFormula (cs : List Control) : Int :=
  pyInt ((cs.map (fun c => c.GetMasterVolume * 100)).sum / (cs.length : ℚ))

/-- The merged mute expression of `update_sessions`: `any(mutes)` where
the mutes list collects each constituent control's mute flag. -/
def muteFormula (cs : List Control) : Bool :=
  (cs.map Control.GetMute).any id

/-- The dict entry created on first sight of a resolved name. -/
def freshEntry (s : NativeSession) (vc : Control) : SEntry :=
  { name := s.resolvedName,
    icon := s.icon.getD "./assets/noicon.png",
    volume := pyInt (vc.GetMasterVolume * 100),
    pid := s.pid,
    isMuted := vc.GetMute,
    controls := [vc],
    mutes := [vc.GetMute] }

/-- Merging one more native control into an existing dict entry
(the `else` branch of the grouping in `update_sessions`). -/
def mergeEntry (e : SEntry) (vc : Control) : SEntry :=
  { e with
    controls := e.controls ++ [vc],
    volume := volFormula (e.controls ++ [vc]),
    mutes := e.mutes ++ [vc.GetMute],
    isMuted := (e.mutes ++ [vc.GetMute]).any id }

/-- Processing of one enumerated native session by the `for` loop of
`update_sessions`.  The dict is modelled as a list of entries in
insertion order (Python dicts preserve insertion order). -/
def updateStep (d : List SEntry) (s : NativeSession) : List SEntry :=
  if s.hasProcessName = true then
    match s.control with
    | some vc =>
        if d.any (fun e => e.name == s.resolvedName) then
          d.map (fun e => if e.name == s.resolvedName then mergeEntry e vc else e)
        else
          d ++ [freshEntry s vc]
    | none => d
  else d

/-- Conversion of a dict entry to a stored session (`_mutes` is popped,
`_controls` is kept). -/
def SEntry.toSession (e : SEntry) : Session :=
  { name := e.name, icon := e.icon, volume := e.volume, pid := e.pid,
    isMuted := e.isMuted, controls := e.controls }

/-- `AudioManager.update_sessions` from backend.py, parameterized by the
enumeration result.  Rebuilds the session list by grouping native
sessions by resolved name, then re-clamps `selected_index`
(`max(0, len - 1)` is natural subtraction here). -/
def AudioManager.update_sessions (m : AudioManager) (enum : List NativeSession) :
    DisplayState × AudioManager :=
  let d := enum.foldl updateStep []
  let sessions := d.map SEntry.toSession
  let idx := if sessions.length ≤ m.selected_index then sessions.length - 1
             else m.selected_index
  let m' := { m with sessions := sessions, selected_index := idx }
  (m'.get_state, m')

/-- `AudioManager.set_volume` from backend.py.  Returns `false` when the
index fails the `0 <= index < len(self.sessions)` test; otherwise writes
`volume / 100.0` to every constituent control (per-control errors
swallowed) and caches the raw `volume` argument. -/
def AudioManager.set_volume (m : AudioManager) (index : Int) (volume : Int) :
    Bool × AudioManager :=
  if 0 ≤ index ∧ index < (m.sessions.length : Int) then
    let i := index.toNat
    let s := m.sessions.getD i dummySession
    let s' := { s with
      controls := s.controls.map (fun c => c.SetMasterVolume ((volume : ℚ) / 100)),
      volume := volume }
    (true, { m with sessions := m.sessions.set i s' })
  else
    (false, m)

/-- `AudioManager.change_volume` from backend.py.  Returns `None` and
leaves the state alone when the session list is empty; otherwise clamps
`volume + delta` into [0, 100], unmutes every constituent control first
if the session was muted, then calls `set_volume` and returns
`get_state`.  The Python code indexes `self.sessions[self.selected_index]`
without a bounds check (an out-of-range index would raise `IndexError`);
the model reads with a default and theorems carry the in-range
hypothesis that all reachable states satisfy. -/
def AudioManager.change_volume (m : AudioManager) (delta : Int) :
    Option DisplayState × AudioManager :=
  if m.sessions.isEmpty then (none, m)
  else
    let s := m.sessions.getD m.selected_index dummySession
    let new_vol := max 0 (min 100 (s.volume + delta))
    let m1 :=
      if s.isMuted then
        { m with sessions := (m.sessions.set m.selected_index
            { s with
              controls := s.controls.map (fun c => c.SetMute false)
              isMuted := false }) }
      else m
    let r := m1.set_volume (m.selected_index : Int) new_vol
    (some r.2.get_state, r.2)

/-- `AudioManager.next_session` from backend.py. -/
def AudioManager.next_session (m : AudioManager) : DisplayState × AudioManager :=
  let m' := if m.sessions.isEmpty then m
            else { m with selected_index := (m.selected_index + 1) % m.sessions.length }
  (m'.get_state, m')

/-- `AudioManager.prev_session` from backend.py.  Python computes
`(selected_index - 1) % len(sessions)` with Python's nonnegative `%`;
for a natural starting index this equals
`(selected_index + (len - 1)) % len`. -/
def AudioManager.prev_session (m : AudioManager) : DisplayState × AudioManager :=
  let m' := if m.sessions.isEmpty then m
            else { m with selected_index :=
              (m.selected_index + (m.sessions.length - 1)) % m.sessions.length }
  (m'.get_state, m')

/-- Operating mode of the media-wheel controller: direct volume or
session selection. -/
inductive Mode where
  | volume
  | select
deriving DecidableEq

/-- Keyboard event names relevant to the handler. `other` stands for any
non-multimedia key. -/
inductive KeyName where
  | volumeUp
  | volumeDown
  | volumeMute
  | other
deriving DecidableEq

/-- Keyboard event type as reported by the hook. -/
inductive KeyType where
  | down
  | up
deriving DecidableEq

/-- One hook event. -/
structure KeyEvent where
  name : KeyName
  event_type : KeyType
deriving DecidableEq

/-- The OS readings consumed during one handler invocation:
`masterRead1` is the `backend.get_master_volume()` call at the top of
the handler, `masterRead2` the one inside the restore block after the
50 ms sleep, and `masterPct` the `backend.get_master()` percentage read
inside `_nudge_master`.  Each is `none` when the native call fails. -/
structure Env where
  masterRead1 : Option ℚ
  masterRead2 : Option ℚ
  masterPct : Option Int
deriving DecidableEq

/-- State of `media_wheel.MediaWheelController`.  `hold_ms` stores the
threshold in seconds (the constructor divides the millisecond argument
by 1000); thread/callback fields are omitted. -/
structure Controller where
  step : Int
  hold_ms : ℚ
  mode : Mode
  audio : AudioManager
  mute_down_at : Option ℚ
  last_master_volume : Option ℚ
  guard_until : ℚ
  event_cooldown : ℚ
  last_delta_at : ℚ
  ignore_deltas_count : Nat
deriving DecidableEq

/-- `MediaWheelController.__init__`. -/
def Controller.init (step : Int) (hold_ms : ℚ) : Controller :=
  { step := step
    hold_ms := hold_ms / 1000
    mode := Mode.volume
    audio := { sessions := [], selected_index := 0, navigation_mode := false }
    mute_down_at := none
    last_master_volume := none
    guard_until := 0
    event_cooldown := 6 / 100
    last_delta_at := 0
    ignore_deltas_count := 0 }

/-- Result of one `_handle_keyboard` invocation: the new controller
state, the Python return value (`true` lets the event pass to the OS,
`false` suppresses it), plus the OS side effects the call emitted:
`masterSet` is the corrective `set_master_volume` write from the restore
block, `masterNudge` the `set_master` percentage write from
`_nudge_master`, `masterMuteToggled` whether `toggle_master_mute` was
called. -/
structure HandleResult where
  ctrl : Controller
  passThrough : Bool
  masterSet : Option ℚ
  masterNudge : Option Int
  masterMuteToggled : Bool
deriving DecidableEq

/-- `MediaWheelController._toggle_mode`: flips the mode, arms the 300 ms
guard window, resets the delta timestamp, and arms the ignore counter. -/
def Controller.toggle_mode (c : Controller) (now : ℚ) : Controller :=
  { c with
    mode := if c.mode = Mode.select then Mode.volume else Mode.select
    guard_until := now + 30 / 100
    last_delta_at := 0
    ignore_deltas_count := 3 }

/-- `MediaWheelController._current_session`. -/
def Controller.current_session (c : Controller) : Option Session :=
  if c.audio.sessions.isEmpty then none
  else if c.audio.selected_index < c.audio.sessions.length then
    some (c.audio.sessions.getD c.audio.selected_index dummySession)
  else none

/-- `MediaWheelController._mute_current`: when a session is selected and
its `_controls` list is non-empty, toggles its mute (fanning the flipped
value out to every constituent control, per-control errors swallowed);
otherwise calls `backend.toggle_master_mute` (the Bool result records
that call). -/
def Controller.mute_current (c : Controller) : Controller × Bool :=
  match c.current_session with
  | some s =>
      if s.controls.isEmpty then (c, true)
      else
        let target := !s.isMuted
        let s' := { s with
          controls := s.controls.map (fun ctl => ctl.SetMute target)
          isMuted := target }
        ({ c with audio := { c.audio with
             sessions := c.audio.sessions.set c.audio.selected_index s' } }, false)
  | none => (c, true)

/-- `MediaWheelController._on_mute_up_internal`: a key-up with no
matching down, or a short hold, toggles the mode; a hold of at least
`hold_ms` mutes the current session.  The Bool records whether
`toggle_master_mute` was called. -/
def Controller.on_mute_up_internal (c : Controller) (now : ℚ) : Controller × Bool :=
  match c.mute_down_at with
  | none => (c.toggle_mode now, false)
  | some t =>
      let held := now - t
      let c1 := { c with mute_down_at := none }
      if c1.hold_ms ≤ held then c1.mute_current
      else (c1.toggle_mode now, false)

/-- `MediaWheelController._handle_volume_change`: in select mode
navigates the session list; otherwise adjusts the selected session's
volume, or nudges the master volume (clamped into [0, 100]) when no
session exists.  The `Option Int` result is the `set_master` write of
`_nudge_master`, if any. -/
def Controller.handle_volume_change (c : Controller) (delta : Int) (env : Env) :
    Controller × Option Int :=
  if c.mode = Mode.select then
    let r := if 0 < delta then c.audio.next_session else c.audio.prev_session
    ({ c with audio := r.2 }, none)
  else
    match c.current_session with
    | some _ =>
        let r := c.audio.change_volume delta
        ({ c with audio := r.2 }, none)
    | none =>
        match env.masterPct with
        | none => (c, none)
        | some cur => (c, some (max 0 (min 100 (cur + delta))))

/-- The master-volume restore block at the end of `_handle_keyboard`:
when a snapshot was taken and the re-read differs from it, the snapshot
value is written back. -/
def restoreMaster (c : Controller) (env : Env) : Option ℚ :=
  match c.last_master_volume with
  | none => none
  | some s => if env.masterRead2 ≠ some s then some s else none

/-- `MediaWheelController._handle_keyboard`.  Non-down events pass
through (running `_on_mute_up_internal` on a mute key-up); non-multimedia
down events pass through untouched.  Multimedia down events first record
the master-volume snapshot, then volume up/down events run the ignore
counter / guard window / cooldown debounce before acting, a mute down
records `mute_down_at`; all multimedia down events are suppressed, and
the paths that act also run the restore block. -/
def Controller.handle_keyboard (c : Controller) (ev : KeyEvent) (now : ℚ) (env : Env) :
    HandleResult :=
  if ev.event_type ≠ KeyType.down then
    if ev.name = KeyName.volumeMute ∧ ev.event_type = KeyType.up then
      let r := c.on_mute_up_internal now
      { ctrl := r.1, passThrough := true, masterSet := none, masterNudge := none,
        masterMuteToggled := r.2 }
    else
      { ctrl := c, passThrough := true, masterSet := none, masterNudge := none,
        masterMuteToggled := false }
  else if ¬ (ev.name = KeyName.volumeUp ∨ ev.name = KeyName.volumeDown ∨
      ev.name = KeyName.volumeMute) then
    { ctrl := c, passThrough := true, masterSet := none, masterNudge := none,
      masterMuteToggled := false }
  else
    let c1 := { c with last_master_volume := env.masterRead1 }
    if ev.name = KeyName.volumeUp ∨ ev.name = KeyName.volumeDown then
      if 0 < c1.ignore_deltas_count then
        { ctrl := { c1 with ignore_deltas_count := c1.ignore_deltas_count - 1 },
          passThrough := false, masterSet := none, masterNudge := none,
          masterMuteToggled := false }
      else if now < c1.guard_until then
        { ctrl := c1, passThrough := false, masterSet := none, masterNudge := none,
          masterMuteToggled := false }
      else if now - c1.last_delta_at < c1.event_cooldown then
        { ctrl := c1, passThrough := false, masterSet := none, masterNudge := none,
          masterMuteToggled := false }
      else
        let c2 := { c1 with last_delta_at := now }
        let delta := if ev.name = KeyName.volumeUp then c2.step else -c2.step
        let r := c2.handle_volume_change delta env
        { ctrl := r.1, passThrough := false, masterSet := restoreMaster r.1 env,
          masterNudge := r.2, masterMuteToggled := false }
    else
      let c2 := { c1 with mute_down_at := some now }
      { ctrl := c2, passThrough := false, masterSet := restoreMaster c2 env,
        masterNudge := none, masterMuteToggled := false }

/-! ## Derived descriptions used in theorem statements -/

/-- Derived description of what `change_volume` does to the selected
session when the directory is non-empty: clamp the new volume, unmute
every control first when the session was muted, fan the new level out to
every control, cache the clamped volume, and clear the mute flag (which
was already clear in the non-muted case). -/
def adjustSession (s : Session) (delta : Int) : Session :=
  { s with
    controls := (if s.isMuted then s.controls.map (fun c => c.SetMute false)
                 else s.controls).map
      (fun c => c.SetMasterVolume (((max 0 (min 100 (s.volume + delta)) : Int) : ℚ) / 100))
    isMuted := false
    volume := max 0 (min 100 (s.volume + delta)) }

/-- Derived description of what `_mute_current` does to the selected
session: flip the mute flag and fan the flipped value out to every
constituent control. -/
def muteToggledSession (s : Session) : Session :=
  { s with
    controls := s.controls.map (fun ctl => ctl.SetMute (!s.isMuted))
    isMuted := !s.isMuted }

/-! ## List helper lemmas -/

theorem getD_set_self {α : Type} (l : List α) (i : Nat) (x d : α)
    (h : i < l.length) : (l.set i x).getD i d = x := by
  rw [List.getD_eq_getElem?_getD, List.getElem?_set_self h]
  rfl

theorem getD_eq_get {α : Type} (l : List α) (i : Nat) (d : α)
    (h : i < l.length) : l.getD i d = l.get ⟨i, h⟩ := by
  rw [List.getD_eq_getElem?_getD, List.getElem?_eq_getElem h]
  rfl

theorem getD_map {α β : Type} (l : List α) (f : α → β) (j : Nat) (d : β) (d' : α)
    (h : j < l.length) : (l.map f).getD j d = f (l.getD j d') := by
  rw [List.getD_eq_getElem?_getD, List.getElem?_map, List.getElem?_eq_getElem h,
    getD_eq_get _ _ _ h]
  rfl

/-! ## Basic facts about set_volume and change_volume -/

theorem set_volume_in_range (m : AudioManager) (i : Nat) (p : Int)
    (h : i < m.sessions.length) :
    m.set_volume (i : Int) p =
      (true, { m with sessions := (m.sessions.set i
        { m.sessions.getD i dummySession with
          controls := (m.sessions.getD i dummySession).controls.map
            (fun c => c.SetMasterVolume ((p : ℚ) / 100))
          volume := p }) }) := by
  unfold AudioManager.set_volume
  rw [if_pos ⟨Int.ofNat_nonneg i, by exact_mod_cast h⟩]
  simp

theorem set_volume_out_of_range (m : AudioManager) (idx : Int) (p : Int)
    (h : ¬ (0 ≤ idx ∧ idx < (m.sessions.length : Int))) :
    m.set_volume idx p = (false, m) := by
  unfold AudioManager.set_volume
  rw [if_neg h]

theorem session_eta_unmuted (s : Session) (h : s.isMuted = false)
    (cs : List Control) (v : Int) :
    ({ s with controls := cs, volume := v } : Session)
      = { s with controls := cs, isMuted := false, volume := v } := by
  cases s
  simp_all

theorem change_volume_in_range (m : AudioManager) (delta : Int)
    (hne : m.sessions ≠ []) (hidx : m.selected_index < m.sessions.length) :
    (m.change_volume delta).2 =
      { m with sessions := (m.sessions.set m.selected_index
          (adjustSession (m.sessions.getD m.selected_index dummySession) delta)) } ∧
    (m.change_volume delta).1 = some (m.change_volume delta).2.get_state := by
  have hemp : m.sessions.isEmpty = false := List.isEmpty_eq_false.mpr hne
  constructor
  · unfold AudioManager.change_volume
    rw [hemp]
    simp only [Bool.false_eq_true, if_false]
    by_cases hmut : (m.sessions.getD m.selected_index dummySession).isMuted
    · rw [if_pos hmut]
      rw [set_volume_in_range _ m.selected_index _ (by rw [List.length_set]; exact hidx)]
      simp only []
      congr 1
      rw [getD_set_self _ _ _ _ hidx, List.set_set]
      congr 1
      simp only [List.getD_eq_getElem?_getD] at hmut
      simp [adjustSession, hmut]
    · rw [if_neg hmut]
      rw [set_volume_in_range m m.selected_index _ hidx]
      simp only []
      congr 1
      congr 1
      rw [session_eta_unmuted _ (Bool.not_eq_true _ ▸ hmut)]
      simp only [List.getD_eq_getElem?_getD] at hmut
      simp [adjustSession, hmut]
  · unfold AudioManager.change_volume
    rw [hemp]
    simp only [Bool.false_eq_true, if_false]

/-! ## Concrete fixtures for counterexamples and witnesses -/

def emptyManager : AudioManager :=
  { sessions := [], selected_index := 0, navigation_mode := false }

def okControl : Control :=
  { level := 1/2, muted := false, setVolumeFails := false, setMuteFails := false }

def mutedControl : Control :=
  { level := 1/4, muted := true, setVolumeFails := false, setMuteFails := false }

def brokenControl : Control :=
  { level := 3/5, muted := false, setVolumeFails := true, setMuteFails := false }

def sampleSession : Session :=
  { name := "Spotify", icon := "i", volume := 40, pid := 7, isMuted := false,
    controls := [okControl, brokenControl] }

def mutedSession : Session :=
  { name := "VLC media player", icon := "j", volume := 99, pid := 9, isMuted := true,
    controls := [mutedControl, okControl] }

def sampleManager : AudioManager :=
  { sessions := [sampleSession, mutedSession], selected_index := 1,
    navigation_mode := false }

def idleController : Controller :=
  { step := 4, hold_ms := 2, mode := Mode.volume, audio := sampleManager,
    mute_down_at := none, last_master_volume := none, guard_until := 0,
    event_cooldown := 0, last_delta_at := 0, ignore_deltas_count := 0 }

def burstController : Controller :=
  { idleController with ignore_deltas_count := 2 }

def quietEnv : Env := { masterRead1 := none, masterRead2 := none, masterPct := none }

/-! ## C1 -/

/-- C1, counterexample: the claim quantifies over all multimedia key
down events, including `volume mute`, but the ignore counter gates only
`volume up` / `volume down`.  With `ignore_deltas_count = 2`, a mute key
down leaves the counter at 2 (not decremented to 1) and records
`mute_down_at`, contradicting both the decrement and the
no-muteKeyDownAt-recording parts of the claim. -/
theorem c1_mute_down_bypasses_counter :
    (burstController.handle_keyboard ⟨KeyName.volumeMute, KeyType.down⟩ 10 quietEnv).ctrl.ignore_deltas_count = 2 ∧
    ¬ (burstController.handle_keyboard ⟨KeyName.volumeMute, KeyType.down⟩ 10 quietEnv).ctrl.ignore_deltas_count
        = burstController.ignore_deltas_count - 1 ∧
    (burstController.handle_keyboard ⟨KeyName.volumeMute, KeyType.down⟩ 10 quietEnv).ctrl.mute_down_at = some 10 ∧
    (burstController.handle_keyboard ⟨KeyName.volumeMute, KeyType.down⟩ 10 quietEnv).passThrough = false := by
  refine ⟨rfl, by decide, rfl, rfl⟩

/-- C1 (amended): for every volume-up or volume-down key down event
delivered while `ignore_deltas_count > 0`, the handler decrements the
counter, suppresses the event, and makes no other state change (mode,
audio state, `mute_down_at`, guard window and delta timestamp are
unchanged; no master-volume write is emitted); the master-volume
snapshot is refreshed as on every multimedia key down.  Volume mute key
down events are not gated by the counter. -/
theorem c1_ignore_counter (c : Controller) (ev : KeyEvent) (now : ℚ) (env : Env)
    (hty : ev.event_type = KeyType.down)
    (hname : ev.name = KeyName.volumeUp ∨ ev.name = KeyName.volumeDown)
    (hcnt : 0 < c.ignore_deltas_count) :
    (c.handle_keyboard ev now env).ctrl.ignore_deltas_count = c.ignore_deltas_count - 1 ∧
    (c.handle_keyboard ev now env).passThrough = false ∧
    (c.handle_keyboard ev now env).ctrl.mode = c.mode ∧
    (c.handle_keyboard ev now env).ctrl.audio = c.audio ∧
    (c.handle_keyboard ev now env).ctrl.mute_down_at = c.mute_down_at ∧
    (c.handle_keyboard ev now env).ctrl.guard_until = c.guard_until ∧
    (c.handle_keyboard ev now env).ctrl.last_delta_at = c.last_delta_at ∧
    (c.handle_keyboard ev now env).ctrl.last_master_volume = env.masterRead1 ∧
    (c.handle_keyboard ev now env).masterSet = none ∧
    (c.handle_keyboard ev now env).masterNudge = none ∧
    (c.handle_keyboard ev now env).masterMuteToggled = false := by
  obtain ⟨nm, ty⟩ := ev
  simp only [] at hty hname
  subst hty
  rcases hname with h | h <;> subst h <;>
    simp [Controller.handle_keyboard, hcnt]

/-- C1 witness: the amended theorem applied to a concrete controller
with a pending ignore count of 2 and a volume-up key down. -/
theorem c1_ignore_counter_witness :
    (burstController.handle_keyboard ⟨KeyName.volumeUp, KeyType.down⟩ 10 quietEnv).ctrl.ignore_deltas_count
      = burstController.ignore_deltas_count - 1 :=
  (c1_ignore_counter burstController ⟨KeyName.volumeUp, KeyType.down⟩ 10 quietEnv
    rfl (Or.inl rfl) (by decide)).1

/-! ## C2 -/

/-- C2, counterexample: on an empty session directory `change_volume`
does leave the state unchanged, but it returns `None` rather than the
display-state snapshot that `get_state` would produce. -/
theorem c2_empty_returns_none :
    (emptyManager.change_volume 4).1 = none ∧
    ¬ (emptyManager.change_volume 4).1 = some emptyManager.get_state ∧
    (emptyManager.change_volume 4).2 = emptyManager := by
  refine ⟨rfl, by decide, rfl⟩

/-- C2 (amended): when the session directory is empty,
`change_volume(delta)` is a no-op on the state (session list,
`selected_index` and `navigation_mode` are all unchanged) but it returns
`None`, not the `get_state` snapshot. -/
theorem c2_empty_noop (m : AudioManager) (delta : Int) (h : m.sessions = []) :
    m.change_volume delta = (none, m) := by
  simp [AudioManager.change_volume, h]

/-- C2 witness: the amended theorem at the empty manager. -/
theorem c2_empty_noop_witness : emptyManager.change_volume 4 = (none, emptyManager) :=
  c2_empty_noop emptyManager 4 rfl

/-! ## C5 -/

/-- C5: `set_volume(index, percent)` returns false exactly when the
index fails the range test; in range it returns true, writes
`percent / 100` to every constituent control (the write's effect on each
control depends only on that control's own failure flag, so one failing
control never blocks the others), and caches the aggregate volume. -/
theorem c5_set_volume (m : AudioManager) (index : Int) (p : Int) :
    ((m.set_volume index p).1 = false ↔
      ¬ (0 ≤ index ∧ index < (m.sessions.length : Int))) ∧
    ((0 ≤ index ∧ index < (m.sessions.length : Int)) →
      (m.set_volume index p).1 = true ∧
      (m.set_volume index p).2.sessions =
        (m.sessions.set index.toNat
          { m.sessions.getD index.toNat dummySession with
            controls := (m.sessions.getD index.toNat dummySession).controls.map
              (fun c => c.SetMasterVolume ((p : ℚ) / 100))
            volume := p }) ∧
      ((m.set_volume index p).2.sessions.getD index.toNat dummySession).volume = p ∧
      ∀ j : Nat, j < (m.sessions.getD index.toNat dummySession).controls.length →
        ((m.sessions.getD index.toNat dummySession).controls.getD j dummyControl).setVolumeFails = false →
          (((m.set_volume index p).2.sessions.getD index.toNat dummySession).controls.getD
              j dummyControl).level = (p : ℚ) / 100) := by
  constructor
  · by_cases h : 0 ≤ index ∧ index < (m.sessions.length : Int)
    · rw [AudioManager.set_volume, if_pos h]
      simpa using h
    · rw [set_volume_out_of_range m index p h]
      simpa using h
  · intro h
    have hlt : index.toNat < m.sessions.length := by omega
    have hcast : ((index.toNat : Int)) = index := Int.toNat_of_nonneg h.1
    have hsv := set_volume_in_range m index.toNat p hlt
    rw [hcast] at hsv
    have hc : ((m.set_volume index p).2.sessions.getD index.toNat dummySession).controls
        = (m.sessions.getD index.toNat dummySession).controls.map
            (fun c => c.SetMasterVolume ((p : ℚ) / 100)) := by
      simp only [hsv]
      rw [getD_set_self _ _ _ _ hlt]
    have hv : ((m.set_volume index p).2.sessions.getD index.toNat dummySession).volume = p := by
      simp only [hsv]
      rw [getD_set_self _ _ _ _ hlt]
    refine ⟨by simp only [hsv], by simp only [hsv], hv, ?_⟩
    intro j hj hok
    rw [hc, getD_map _ _ j dummyControl dummyControl hj]
    simp only [List.getD_eq_getElem?_getD] at hok
    simp [Control.SetMasterVolume, hok]

/-- C5 witness: a concrete in-range set returns true. -/
theorem c5_set_volume_witness :
    (0 ≤ (0 : Int) ∧ (0 : Int) < (sampleManager.sessions.length : Int)) ∧
    (sampleManager.set_volume 0 30).1 = true :=
  ⟨by decide, ((c5_set_volume sampleManager 0 30).2 (by decide)).1⟩

/-! ## More consequences of change_volume_in_range -/

theorem change_volume_selected_volume (m : AudioManager) (delta : Int)
    (hne : m.sessions ≠ []) (hidx : m.selected_index < m.sessions.length) :
    ((m.change_volume delta).2.sessions.getD m.selected_index dummySession).volume
      = max 0 (min 100 ((m.sessions.getD m.selected_index dummySession).volume + delta)) := by
  rw [(change_volume_in_range m delta hne hidx).1]
  show ((m.sessions.set m.selected_index (adjustSession _ delta)).getD
    m.selected_index dummySession).volume = _
  rw [getD_set_self _ _ _ _ hidx]
  rfl

theorem change_volume_selected_isMuted (m : AudioManager) (delta : Int)
    (hne : m.sessions ≠ []) (hidx : m.selected_index < m.sessions.length) :
    ((m.change_volume delta).2.sessions.getD m.selected_index dummySession).isMuted
      = false := by
  rw [(change_volume_in_range m delta hne hidx).1]
  show ((m.sessions.set m.selected_index (adjustSession _ delta)).getD
    m.selected_index dummySession).isMuted = _
  rw [getD_set_self _ _ _ _ hidx]
  rfl

theorem change_volume_preserves (m : AudioManager) (delta : Int)
    (hne : m.sessions ≠ []) (hidx : m.selected_index < m.sessions.length) :
    (m.change_volume delta).2.selected_index = m.selected_index ∧
    (m.change_volume delta).2.sessions.length = m.sessions.length ∧
    (m.change_volume delta).2.navigation_mode = m.navigation_mode := by
  rw [(change_volume_in_range m delta hne hidx).1]
  refine ⟨rfl, ?_, rfl⟩
  show (m.sessions.set m.selected_index (adjustSession _ delta)).length = _
  exact List.length_set m.sessions m.selected_index _

/-! ## C10 -/

/-- C10: on any in-range index, `set_volume` returns true and caches the
raw percent argument without clamping (this holds for every integer
percent, including ones outside [0, 100]); even when every constituent
control's native set raises, the controls are left unchanged while the
cached volume becomes the argument, so the cache can diverge from the
control levels.  The [0, 100] clamp exists only in the caller
`change_volume`, whose written volume is always the clamped value. -/
theorem c10_no_clamp_in_set_volume (m : AudioManager) (index : Int) (p : Int)
    (h : 0 ≤ index ∧ index < (m.sessions.length : Int)) :
    (m.set_volume index p).1 = true ∧
    ((m.set_volume index p).2.sessions.getD index.toNat dummySession).volume = p ∧
    ((∀ c ∈ (m.sessions.getD index.toNat dummySession).controls, c.setVolumeFails = true) →
      ((m.set_volume index p).2.sessions.getD index.toNat dummySession).controls
        = (m.sessions.getD index.toNat dummySession).controls) ∧
    (∀ delta : Int, m.sessions ≠ [] → m.selected_index < m.sessions.length →
      ((m.change_volume delta).2.sessions.getD m.selected_index dummySession).volume
        = max 0 (min 100 ((m.sessions.getD m.selected_index dummySession).volume + delta))) := by
  have hlt : index.toNat < m.sessions.length := by omega
  have hcast : ((index.toNat : Int)) = index := Int.toNat_of_nonneg h.1
  have hsv := set_volume_in_range m index.toNat p hlt
  rw [hcast] at hsv
  have hc : ((m.set_volume index p).2.sessions.getD index.toNat dummySession).controls
      = (m.sessions.getD index.toNat dummySession).controls.map
          (fun c => c.SetMasterVolume ((p : ℚ) / 100)) := by
    simp only [hsv]
    rw [getD_set_self _ _ _ _ hlt]
  have hv : ((m.set_volume index p).2.sessions.getD index.toNat dummySession).volume = p := by
    simp only [hsv]
    rw [getD_set_self _ _ _ _ hlt]
  refine ⟨by simp only [hsv], hv, ?_, ?_⟩
  · intro hall
    rw [hc]
    have hfix : ∀ c ∈ (m.sessions.getD index.toNat dummySession).controls,
        c.SetMasterVolume ((p : ℚ) / 100) = c := by
      intro c hcm
      simp [Control.SetMasterVolume, hall c hcm]
    rw [List.map_congr_left hfix]
    simp
  · intro delta hne hidx
    exact change_volume_selected_volume m delta hne hidx

/-- C10 witness: on a concrete manager, setting percent 250 (outside
[0, 100]) on the session whose controls all fail still returns true and
caches 250 verbatim. -/
theorem c10_no_clamp_in_set_volume_witness :
    (0 ≤ (0 : Int) ∧ (0 : Int) < (sampleManager.sessions.length : Int)) ∧
    (sampleManager.set_volume 0 250).1 = true ∧
    ((sampleManager.set_volume 0 250).2.sessions.getD 0 dummySession).volume = 250 :=
  ⟨by decide, (c10_no_clamp_in_set_volume sampleManager 0 250 (by decide)).1,
    (c10_no_clamp_in_set_volume sampleManager 0 250 (by decide)).2.1⟩

/-! ## C6 -/

/-- C6: over any sequence of `change_volume` calls on a non-empty
directory with an in-range selection and a starting cached volume in
[0, 100], the selected session's cached volume stays in [0, 100]. -/
theorem c6_volume_clamping (m : AudioManager) (deltas : List Int)
    (hne : m.sessions ≠ []) (hidx : m.selected_index < m.sessions.length)
    (hlo : 0 ≤ (m.sessions.getD m.selected_index dummySession).volume)
    (hhi : (m.sessions.getD m.selected_index dummySession).volume ≤ 100) :
    0 ≤ ((deltas.foldl (fun mm d => (mm.change_volume d).2) m).sessions.getD
          (deltas.foldl (fun mm d => (mm.change_volume d).2) m).selected_index
          dummySession).volume ∧
    ((deltas.foldl (fun mm d => (mm.change_volume d).2) m).sessions.getD
          (deltas.foldl (fun mm d => (mm.change_volume d).2) m).selected_index
          dummySession).volume ≤ 100 := by
  induction deltas generalizing m with
  | nil => exact ⟨hlo, hhi⟩
  | cons d ds ih =>
      rw [List.foldl_cons]
      have hpre := change_volume_preserves m d hne hidx
      have hvol := change_volume_selected_volume m d hne hidx
      have hne' : (m.change_volume d).2.sessions ≠ [] := by
        have : 0 < (m.change_volume d).2.sessions.length := by
          rw [hpre.2.1]
          exact List.length_pos.mpr hne
        exact List.length_pos.mp this
      have hidx' : (m.change_volume d).2.selected_index
          < (m.change_volume d).2.sessions.length := by
        rw [hpre.1, hpre.2.1]
        exact hidx
      refine ih _ hne' hidx' ?_ ?_
      · rw [hpre.1, hvol]
        exact le_max_left 0 _
      · rw [hpre.1, hvol]
        exact max_le (by norm_num) (min_le_left 100 _)

/-- C6 witness: a concrete run with deltas that overshoot in both
directions keeps the selected volume inside [0, 100]. -/
theorem c6_volume_clamping_witness :
    0 ≤ ((([5, -300, 7] : List Int).foldl
            (fun (mm : AudioManager) (d : Int) => (mm.change_volume d).2)
            sampleManager).sessions.getD
          (([5, -300, 7] : List Int).foldl
            (fun (mm : AudioManager) (d : Int) => (mm.change_volume d).2)
            sampleManager).selected_index dummySession).volume :=
  (c6_volume_clamping sampleManager [5, -300, 7] (by decide) (by decide)
    (by decide) (by decide)).1

/-! ## C7 -/

/-- C7: on a non-empty directory whose selected session is muted,
`change_volume(delta)` leaves the selected session unmuted for every
delta, and the resulting controls are exactly the old controls with an
unmute applied first (per-control, errors swallowed) and the clamped
volume level applied second. -/
theorem c7_unmute_on_adjust (m : AudioManager) (delta : Int)
    (hne : m.sessions ≠ []) (hidx : m.selected_index < m.sessions.length)
    (hmut : (m.sessions.getD m.selected_index dummySession).isMuted = true) :
    ((m.change_volume delta).2.sessions.getD m.selected_index dummySession).isMuted
      = false ∧
    ((m.change_volume delta).2.sessions.getD m.selected_index dummySession).controls
      = (m.sessions.getD m.selected_index dummySession).controls.map
          (fun c => (c.SetMute false).SetMasterVolume
            (((max 0 (min 100 ((m.sessions.getD m.selected_index dummySession).volume
              + delta)) : Int) : ℚ) / 100)) := by
  refine ⟨change_volume_selected_isMuted m delta hne hidx, ?_⟩
  rw [(change_volume_in_range m delta hne hidx).1]
  show ((m.sessions.set m.selected_index (adjustSession _ delta)).getD
    m.selected_index dummySession).controls = _
  rw [getD_set_self _ _ _ _ hidx]
  simp only [adjustSession, hmut, if_true, List.map_map]
  rfl

/-- C7 witness: the muted sample session is unmuted by a volume change. -/
theorem c7_unmute_on_adjust_witness :
    ((sampleManager.change_volume 5).2.sessions.getD
      sampleManager.selected_index dummySession).isMuted = false :=
  (c7_unmute_on_adjust sampleManager 5 (by decide) (by decide) (by decide)).1

/-! ## C9 -/

/-- One `next_session` call viewed as a state-to-state step. -/
def nextIter (m : AudioManager) : AudioManager := m.next_session.2

theorem nextIter_sessions (m : AudioManager) : (nextIter m).sessions = m.sessions := by
  unfold nextIter AudioManager.next_session
  by_cases h : m.sessions.isEmpty <;> simp [h]

theorem nextIter_selected (m : AudioManager) (h : m.sessions ≠ []) :
    (nextIter m).selected_index = (m.selected_index + 1) % m.sessions.length := by
  unfold nextIter AudioManager.next_session
  rw [List.isEmpty_eq_false.mpr h]
  simp

/-- C9: with N sessions and any in-range starting index, N calls of
`next_session` return `selected_index` to its original value, each call
advancing the index modulo N. -/
theorem c9_selection_wraps (m : AudioManager)
    (h : m.selected_index < m.sessions.length) :
    (nextIter^[m.sessions.length] m).selected_index = m.selected_index := by
  have hne : m.sessions ≠ [] := by
    intro he
    rw [he] at h
    simp at h
  have key : ∀ k : Nat, (nextIter^[k] m).sessions = m.sessions ∧
      (nextIter^[k] m).selected_index = (m.selected_index + k) % m.sessions.length := by
    intro k
    induction k with
    | zero =>
        refine ⟨rfl, ?_⟩
        simp [Nat.mod_eq_of_lt h]
    | succ k ih =>
        rw [Function.iterate_succ_apply']
        have hne' : (nextIter^[k] m).sessions ≠ [] := by
          rw [ih.1]
          exact hne
        constructor
        · rw [nextIter_sessions, ih.1]
        · rw [nextIter_selected _ hne', ih.1, ih.2, Nat.mod_add_mod]
          congr 1
  rw [(key m.sessions.length).2, Nat.add_mod_right, Nat.mod_eq_of_lt h]

/-- C9 witness: two sessions, starting index 1, two calls wrap back. -/
theorem c9_selection_wraps_witness :
    (nextIter^[sampleManager.sessions.length] sampleManager).selected_index
      = sampleManager.selected_index :=
  c9_selection_wraps sampleManager (by decide)

/-! ## Controller lemmas -/

theorem handle_volume_change_lmv (c : Controller) (delta : Int) (env : Env) :
    (c.handle_volume_change delta env).1.last_master_volume = c.last_master_volume := by
  unfold Controller.handle_volume_change
  split
  · rfl
  · split
    · rfl
    · split <;> rfl

theorem restoreMaster_of_lmv (c' : Controller) (env : Env) (s : ℚ)
    (h : c'.last_master_volume = some s) :
    restoreMaster c' env = if env.masterRead2 ≠ some s then some s else none := by
  unfold restoreMaster
  rw [h]

theorem handle_keyboard_accepted (c : Controller) (nm : KeyName) (now : ℚ) (env : Env)
    (hname : nm = KeyName.volumeUp ∨ nm = KeyName.volumeDown)
    (hcnt : c.ignore_deltas_count = 0)
    (hguard : ¬ now < c.guard_until)
    (hcool : ¬ now - c.last_delta_at < c.event_cooldown) :
    c.handle_keyboard ⟨nm, KeyType.down⟩ now env =
      { ctrl := (Controller.handle_volume_change
          { c with last_master_volume := env.masterRead1, last_delta_at := now }
          (if nm = KeyName.volumeUp then c.step else -c.step) env).1
        passThrough := false
        masterSet := restoreMaster (Controller.handle_volume_change
          { c with last_master_volume := env.masterRead1, last_delta_at := now }
          (if nm = KeyName.volumeUp then c.step else -c.step) env).1 env
        masterNudge := (Controller.handle_volume_change
          { c with last_master_volume := env.masterRead1, last_delta_at := now }
          (if nm = KeyName.volumeUp then c.step else -c.step) env).2
        masterMuteToggled := false } := by
  rcases hname with h | h <;> subst h <;>
    simp [Controller.handle_keyboard, hcnt, hguard, hcool]

/-! ## C4 -/

/-- C4: for every accepted volume-up/volume-down key down event whose
initial master-volume read succeeded, the handler stores that snapshot,
and the restore block issues a corrective master-volume write of exactly
the snapshot value if and only if the post-event master read differs
from the snapshot. -/
theorem c4_master_restore (c : Controller) (ev : KeyEvent) (now : ℚ) (env : Env) (s : ℚ)
    (hty : ev.event_type = KeyType.down)
    (hname : ev.name = KeyName.volumeUp ∨ ev.name = KeyName.volumeDown)
    (hcnt : c.ignore_deltas_count = 0)
    (hguard : ¬ now < c.guard_until)
    (hcool : ¬ now - c.last_delta_at < c.event_cooldown)
    (hread : env.masterRead1 = some s) :
    (c.handle_keyboard ev now env).ctrl.last_master_volume = some s ∧
    ((c.handle_keyboard ev now env).masterSet = some s ↔ ¬ env.masterRead2 = some s) ∧
    ((c.handle_keyboard ev now env).masterSet = none ↔ env.masterRead2 = some s) := by
  obtain ⟨nm, ty⟩ := ev
  simp only [] at hty hname
  subst hty
  rw [handle_keyboard_accepted c nm now env hname hcnt hguard hcool]
  have hl : (Controller.handle_volume_change
      { c with last_master_volume := env.masterRead1, last_delta_at := now }
      (if nm = KeyName.volumeUp then c.step else -c.step) env).1.last_master_volume
      = some s := by
    rw [handle_volume_change_lmv]
    exact hread
  have hrm := restoreMaster_of_lmv _ env s hl
  refine ⟨hl, ?_, ?_⟩ <;>
    · show (restoreMaster _ env = _ ↔ _)
      rw [hrm]
      by_cases hmr : env.masterRead2 = some s <;> simp [hmr]

/-- C4 witness: accepted volume-up with snapshot 1 and a differing
post-event read 0 emits the corrective write of the snapshot. -/
theorem c4_master_restore_witness :
    (idleController.handle_keyboard ⟨KeyName.volumeUp, KeyType.down⟩ 10
      { masterRead1 := some 1, masterRead2 := some 0, masterPct := none }).masterSet
      = some 1 :=
  ((c4_master_restore idleController ⟨KeyName.volumeUp, KeyType.down⟩ 10
      { masterRead1 := some 1, masterRead2 := some 0, masterPct := none } 1
      rfl (Or.inl rfl) rfl (by decide)
      (by simp only [idleController, sub_zero]; decide) rfl).2.1).mpr (by decide)

/-! ## C8 -/

theorem handle_keyboard_mute_up_long (c : Controller) (t now : ℚ) (env : Env)
    (hdown : c.mute_down_at = some t) (hheld : c.hold_ms ≤ now - t) :
    c.handle_keyboard ⟨KeyName.volumeMute, KeyType.up⟩ now env =
      { ctrl := (Controller.mute_current { c with mute_down_at := none }).1
        passThrough := true
        masterSet := none
        masterNudge := none
        masterMuteToggled := (Controller.mute_current { c with mute_down_at := none }).2 } := by
  simp [Controller.handle_keyboard, Controller.on_mute_up_internal, hdown, hheld]

theorem mute_current_some (c : Controller)
    (hne : c.audio.sessions ≠ [])
    (hidx : c.audio.selected_index < c.audio.sessions.length)
    (hc : (c.audio.sessions.getD c.audio.selected_index dummySession).controls ≠ []) :
    c.mute_current =
      ({ c with audio := { c.audio with sessions := (c.audio.sessions.set
          c.audio.selected_index (muteToggledSession
            (c.audio.sessions.getD c.audio.selected_index dummySession))) } }, false) := by
  have hc' : c.audio.sessions[c.audio.selected_index].controls ≠ [] := by
    rw [List.getD_eq_getElem?_getD, List.getElem?_eq_getElem hidx] at hc
    simpa using hc
  unfold Controller.mute_current Controller.current_session
  rw [List.isEmpty_eq_false.mpr hne]
  simp [hidx, List.isEmpty_eq_false.mpr hc', muteToggledSession,
    List.getD_eq_getElem?_getD, List.getElem?_eq_getElem hidx]

theorem mute_current_empty (c : Controller) (hemp : c.audio.sessions = []) :
    c.mute_current = (c, true) := by
  unfold Controller.mute_current Controller.current_session
  simp [hemp]

/-- C8: a mute key-up after a hold of at least the threshold toggles
exactly the selected session's mute flag: the session list keeps its
length, the selected entry becomes the same session with its mute flag
flipped (fanned out to every constituent control) and its cached volume
untouched, and selection, controller mode and navigation mode are all
unchanged; when no session exists the handler instead calls
`toggle_master_mute` and leaves the audio state unchanged.  (Reachable
sessions always have a non-empty `_controls` list, which the non-empty
case assumes.) -/
theorem c8_long_press_mute (c : Controller) (t now : ℚ) (env : Env)
    (hdown : c.mute_down_at = some t)
    (hheld : c.hold_ms ≤ now - t) :
    (c.audio.sessions ≠ [] → c.audio.selected_index < c.audio.sessions.length →
      (c.audio.sessions.getD c.audio.selected_index dummySession).controls ≠ [] →
      ((c.handle_keyboard ⟨KeyName.volumeMute, KeyType.up⟩ now env).ctrl.audio.sessions
          = (c.audio.sessions.set c.audio.selected_index
              (muteToggledSession
                (c.audio.sessions.getD c.audio.selected_index dummySession))) ∧
        ((c.handle_keyboard ⟨KeyName.volumeMute, KeyType.up⟩ now env).ctrl.audio.sessions.getD
            c.audio.selected_index dummySession).isMuted
          = !(c.audio.sessions.getD c.audio.selected_index dummySession).isMuted ∧
        ((c.handle_keyboard ⟨KeyName.volumeMute, KeyType.up⟩ now env).ctrl.audio.sessions.getD
            c.audio.selected_index dummySession).volume
          = (c.audio.sessions.getD c.audio.selected_index dummySession).volume ∧
        (c.handle_keyboard ⟨KeyName.volumeMute, KeyType.up⟩ now env).ctrl.audio.sessions.length
          = c.audio.sessions.length ∧
        (c.handle_keyboard ⟨KeyName.volumeMute, KeyType.up⟩ now env).ctrl.audio.selected_index
          = c.audio.selected_index ∧
        (c.handle_keyboard ⟨KeyName.volumeMute, KeyType.up⟩ now env).ctrl.mode = c.mode ∧
        (c.handle_keyboard ⟨KeyName.volumeMute, KeyType.up⟩ now env).ctrl.audio.navigation_mode
          = c.audio.navigation_mode ∧
        (c.handle_keyboard ⟨KeyName.volumeMute, KeyType.up⟩ now env).masterMuteToggled
          = false)) ∧
    (c.audio.sessions = [] →
      ((c.handle_keyboard ⟨KeyName.volumeMute, KeyType.up⟩ now env).ctrl.audio = c.audio ∧
       (c.handle_keyboard ⟨KeyName.volumeMute, KeyType.up⟩ now env).ctrl.mode = c.mode ∧
       (c.handle_keyboard ⟨KeyName.volumeMute, KeyType.up⟩ now env).masterMuteToggled
         = true)) := by
  have hred := handle_keyboard_mute_up_long c t now env hdown hheld
  constructor
  · intro hne hidx hc
    have hmc := mute_current_some { c with mute_down_at := none } hne hidx hc
    rw [hred, hmc]
    refine ⟨rfl, ?_, ?_, ?_, rfl, rfl, rfl, rfl⟩
    · show ((c.audio.sessions.set c.audio.selected_index
        (muteToggledSession (c.audio.sessions.getD c.audio.selected_index
          dummySession))).getD c.audio.selected_index dummySession).isMuted = _
      rw [getD_set_self _ _ _ _ hidx]
      rfl
    · show ((c.audio.sessions.set c.audio.selected_index
        (muteToggledSession (c.audio.sessions.getD c.audio.selected_index
          dummySession))).getD c.audio.selected_index dummySession).volume = _
      rw [getD_set_self _ _ _ _ hidx]
      rfl
    · show (c.audio.sessions.set c.audio.selected_index
        (muteToggledSession (c.audio.sessions.getD c.audio.selected_index
          dummySession))).length = _
      exact List.length_set _ _ _
  · intro hemp
    have hmc := mute_current_empty { c with mute_down_at := none } hemp
    rw [hred, hmc]
    exact ⟨rfl, rfl, rfl⟩

def heldController : Controller := { idleController with mute_down_at := some 0 }

/-- C8 witness: holding the mute key for 5 seconds (threshold 2) flips
the selected session's mute flag on a concrete controller. -/
theorem c8_long_press_mute_witness :
    ((heldController.handle_keyboard ⟨KeyName.volumeMute, KeyType.up⟩ 5
        quietEnv).ctrl.audio.sessions.getD
        heldController.audio.selected_index dummySession).isMuted
      = !(heldController.audio.sessions.getD heldController.audio.selected_index
          dummySession).isMuted :=
  ((c8_long_press_mute heldController 0 5 quietEnv rfl
      (by simp only [heldController, idleController, sub_zero]; decide)).1
    (by decide) (by decide) (by decide)).2.1

/-! ## C3: properties of the grouping fold in update_sessions -/

/-- The control a single enumerated native session contributes to the
group of resolved name `nm`: its volume control when the session passes
the process/control admission checks and resolves to `nm`. -/
def matchedOne (nm : String) (s : NativeSession) : Option Control :=
  if s.hasProcessName = true ∧ s.resolvedName = nm then s.control else none

/-- All controls an enumeration contributes to the group of resolved
name `nm`, in enumeration order. -/
def matchedControls (nm : String) (l : List NativeSession) : List Control :=
  l.filterMap (matchedOne nm)

/-- The controls stored under key `nm` in the grouping dict. -/
def ctrlsOf (d : List SEntry) (nm : String) : List Control :=
  ((d.find? (fun e => e.name == nm)).map SEntry.controls).getD []

theorem mergeEntry_name (e : SEntry) (vc : Control) : (mergeEntry e vc).name = e.name := rfl

theorem find?_map_name_preserving (d : List SEntry) (f : SEntry → SEntry) (nm : String)
    (hf : ∀ e, (f e).name = e.name) :
    (d.map f).find? (fun e => e.name == nm) = (d.find? (fun e => e.name == nm)).map f := by
  induction d with
  | nil => rfl
  | cons a l ih =>
      by_cases h : (a.name == nm) = true
      · have hfa : ((f a).name == nm) = true := by rw [hf]; exact h
        simp only [List.map_cons, List.find?_cons, hfa, h]
        rfl
      · have hfa : ((f a).name == nm) = false := by
          rw [hf]
          simpa using h
        have h' : (a.name == nm) = false := by simpa using h
        simp only [List.map_cons, List.find?_cons, hfa, h']
        exact ih

theorem updateStep_skip_name (d : List SEntry) (s : NativeSession)
    (hp : ¬ s.hasProcessName = true) : updateStep d s = d := by
  unfold updateStep
  rw [if_neg hp]

theorem updateStep_skip_ctl (d : List SEntry) (s : NativeSession)
    (hctl : s.control = none) : updateStep d s = d := by
  unfold updateStep
  by_cases hp : s.hasProcessName = true
  · rw [if_pos hp, hctl]
  · rw [if_neg hp]

theorem updateStep_merge (d : List SEntry) (s : NativeSession) (vc : Control)
    (hp : s.hasProcessName = true) (hctl : s.control = some vc)
    (hany : d.any (fun e => e.name == s.resolvedName) = true) :
    updateStep d s
      = d.map (fun e => if (e.name == s.resolvedName) = true then mergeEntry e vc else e) := by
  unfold updateStep
  rw [if_pos hp, hctl]
  show (if (d.any fun e => e.name == s.resolvedName) = true
      then d.map (fun e => if (e.name == s.resolvedName) = true then mergeEntry e vc else e)
      else d ++ [freshEntry s vc]) = _
  rw [if_pos hany]

theorem updateStep_fresh (d : List SEntry) (s : NativeSession) (vc : Control)
    (hp : s.hasProcessName = true) (hctl : s.control = some vc)
    (hany : ¬ d.any (fun e => e.name == s.resolvedName) = true) :
    updateStep d s = d ++ [freshEntry s vc] := by
  unfold updateStep
  rw [if_pos hp, hctl]
  show (if (d.any fun e => e.name == s.resolvedName) = true
      then d.map (fun e => if (e.name == s.resolvedName) = true then mergeEntry e vc else e)
      else d ++ [freshEntry s vc]) = _
  rw [if_neg hany]

theorem ctrlsOf_updateStep (d : List SEntry) (s : NativeSession) (nm : String) :
    ctrlsOf (updateStep d s) nm = ctrlsOf d nm ++ (matchedOne nm s).toList := by
  by_cases hp : s.hasProcessName = true
  · cases hctl : s.control with
    | none =>
        rw [updateStep_skip_ctl d s hctl]
        have hm0 : matchedOne nm s = none := by
          unfold matchedOne
          rw [hctl]
          simp
        rw [hm0]
        simp
    | some vc =>
        by_cases hnm : s.resolvedName = nm
        · subst hnm
          have hm1 : matchedOne s.resolvedName s = some vc := by
            unfold matchedOne
            rw [if_pos ⟨hp, rfl⟩, hctl]
          rw [hm1]
          by_cases hany : d.any (fun e => e.name == s.resolvedName) = true
          · rw [updateStep_merge d s vc hp hctl hany]
            obtain ⟨e0, he0mem, he0p⟩ := List.any_eq_true.mp hany
            have hsome : ((d.find? (fun e => e.name == s.resolvedName)).isSome = true) :=
              List.find?_isSome.mpr ⟨e0, he0mem, he0p⟩
            obtain ⟨e1, he1⟩ := Option.isSome_iff_exists.mp hsome
            have he1p := List.find?_some he1
            unfold ctrlsOf
            rw [find?_map_name_preserving d _ _ (fun e => by
              by_cases hh : (e.name == s.resolvedName) = true <;> simp [hh, mergeEntry_name])]
            rw [he1]
            simp [mergeEntry, eq_of_beq he1p]
          · rw [updateStep_fresh d s vc hp hctl hany]
            have hnone : d.find? (fun e => e.name == s.resolvedName) = none := by
              rw [List.find?_eq_none]
              intro x hx hpx
              exact hany (List.any_eq_true.mpr ⟨x, hx, hpx⟩)
            unfold ctrlsOf
            rw [List.find?_append, hnone]
            simp [List.find?, freshEntry]
        · have hm0 : matchedOne nm s = none := by
            unfold matchedOne
            rw [if_neg (fun hh => hnm hh.2)]
          rw [hm0]
          simp only [Option.toList_none, List.append_nil]
          by_cases hany : d.any (fun e => e.name == s.resolvedName) = true
          · rw [updateStep_merge d s vc hp hctl hany]
            unfold ctrlsOf
            rw [find?_map_name_preserving d _ _ (fun e => by
              by_cases hh : (e.name == s.resolvedName) = true <;> simp [hh, mergeEntry_name])]
            cases hf : d.find? (fun e => e.name == nm) with
            | none => rfl
            | some e1 =>
                have he1p := List.find?_some hf
                simp only [] at he1p
                have hne2 : ¬ e1.name = s.resolvedName := by
                  intro hx
                  exact hnm (hx.symm.trans (eq_of_beq he1p))
                simp [hne2]
          · rw [updateStep_fresh d s vc hp hctl hany]
            unfold ctrlsOf
            rw [List.find?_append]
            have hfr : [freshEntry s vc].find? (fun e => e.name == nm) = none := by
              simp [List.find?, freshEntry, beq_eq_false_iff_ne.mpr hnm]
            rw [hfr]
            cases hf : d.find? (fun e => e.name == nm) <;> simp
  · rw [updateStep_skip_name d s hp]
    have hm0 : matchedOne nm s = none := by
      unfold matchedOne
      rw [if_neg (fun hh => hp hh.1)]
    rw [hm0]
    simp

theorem ctrlsOf_foldl (l : List NativeSession) (d : List SEntry) (nm : String) :
    ctrlsOf (l.foldl updateStep d) nm = ctrlsOf d nm ++ matchedControls nm l := by
  induction l generalizing d with
  | nil => simp [matchedControls]
  | cons s l ih =>
      rw [List.foldl_cons, ih, ctrlsOf_updateStep]
      unfold matchedControls
      rw [List.filterMap_cons]
      cases h : matchedOne nm s <;> simp [List.append_assoc]

/-- Invariant of every dict entry during the grouping fold: the mutes
list mirrors the controls' mute flags, the cached volume and mute are
the aggregation formulas over the stored controls, and the controls
list is non-empty. -/
def entryWf (e : SEntry) : Prop :=
  e.mutes = e.controls.map Control.GetMute ∧
  e.volume = volFormula e.controls ∧
  e.isMuted = muteFormula e.controls ∧
  e.controls ≠ []

theorem entryWf_freshEntry (s : NativeSession) (vc : Control) :
    entryWf (freshEntry s vc) := by
  refine ⟨rfl, ?_, ?_, by simp [freshEntry]⟩
  · show pyInt (vc.GetMasterVolume * 100) = volFormula [vc]
    unfold volFormula
    simp
  · show vc.GetMute = muteFormula [vc]
    unfold muteFormula
    simp

theorem entryWf_mergeEntry (e : SEntry) (vc : Control) (he : entryWf e) :
    entryWf (mergeEntry e vc) := by
  obtain ⟨h1, h2, h3, h4⟩ := he
  refine ⟨?_, rfl, ?_, by simp [mergeEntry]⟩
  · show e.mutes ++ [vc.GetMute] = (e.controls ++ [vc]).map Control.GetMute
    rw [h1, List.map_append]
    rfl
  · show (e.mutes ++ [vc.GetMute]).any id = muteFormula (e.controls ++ [vc])
    rw [h1]
    unfold muteFormula
    rw [List.map_append]
    rfl

/-- Invariant of the whole grouping dict: all entries well-formed and
keys distinct. -/
def dictWf (d : List SEntry) : Prop :=
  (∀ e ∈ d, entryWf e) ∧ (d.map SEntry.name).Nodup

theorem dictWf_updateStep (d : List SEntry) (s : NativeSession) (h : dictWf d) :
    dictWf (updateStep d s) := by
  obtain ⟨hwf, hnd⟩ := h
  by_cases hp : s.hasProcessName = true
  · cases hctl : s.control with
    | none =>
        rw [updateStep_skip_ctl d s hctl]
        exact ⟨hwf, hnd⟩
    | some vc =>
        by_cases hany : d.any (fun e => e.name == s.resolvedName) = true
        · rw [updateStep_merge d s vc hp hctl hany]
          constructor
          · intro e' he'
            obtain ⟨e, hem, hfe⟩ := List.mem_map.mp he'
            rw [← hfe]
            by_cases hh : (e.name == s.resolvedName) = true
            · simp only [hh, if_true]
              exact entryWf_mergeEntry e vc (hwf e hem)
            · simp only [hh, if_false]
              exact hwf e hem
          · rw [List.map_map]
            have hcomp : (SEntry.name ∘ fun e =>
                if (e.name == s.resolvedName) = true then mergeEntry e vc else e)
                = SEntry.name := by
              funext e
              by_cases hh : (e.name == s.resolvedName) = true <;>
                simp [Function.comp, hh, mergeEntry_name]
            rw [hcomp]
            exact hnd
        · rw [updateStep_fresh d s vc hp hctl hany]
          constructor
          · intro e' he'
            rcases List.mem_append.mp he' with hmem | hmem
            · exact hwf e' hmem
            · rw [List.mem_singleton.mp hmem]
              exact entryWf_freshEntry s vc
          · rw [List.map_append, List.nodup_append]
            refine ⟨hnd, List.nodup_singleton _, ?_⟩
            intro x hx hx2
            obtain ⟨e, hem, hfe⟩ := List.mem_map.mp hx
            have hx2' : x = s.resolvedName := by
              simpa [freshEntry] using hx2
            apply hany
            refine List.any_eq_true.mpr ⟨e, hem, ?_⟩
            rw [beq_iff_eq, hfe, hx2']
  · rw [updateStep_skip_name d s hp]
    exact ⟨hwf, hnd⟩

theorem dictWf_foldl (l : List NativeSession) (d : List SEntry) (h : dictWf d) :
    dictWf (l.foldl updateStep d) := by
  induction l generalizing d with
  | nil => exact h
  | cons s l ih => exact ih _ (dictWf_updateStep d s h)

theorem countP_name_of_find? (d : List SEntry) (nm : String) (e : SEntry)
    (hfind : d.find? (fun x => x.name == nm) = some e)
    (hnd : (d.map SEntry.name).Nodup) :
    d.countP (fun x => x.name == nm) = 1 := by
  have hmem := List.mem_of_find?_eq_some hfind
  have hp := List.find?_some hfind
  simp only [] at hp
  have hone : d.countP (fun x => x.name == nm) = (d.map SEntry.name).count nm := by
    show List.countP (fun x => x.name == nm) d
      = List.countP (fun x => x == nm) (d.map SEntry.name)
    rw [List.countP_map]
    rfl
  rw [hone]
  have hle := List.nodup_iff_count_le_one.mp hnd nm
  have hge : 0 < (d.map SEntry.name).count nm := by
    rw [List.count_pos_iff]
    exact List.mem_map.mpr ⟨e, hmem, eq_of_beq hp⟩
  omega

theorem update_sessions_snd_sessions (m : AudioManager) (enum : List NativeSession) :
    (m.update_sessions enum).2.sessions
      = (enum.foldl updateStep []).map SEntry.toSession := rfl

theorem toSession_name (e : SEntry) : e.toSession.name = e.name := rfl

theorem toSession_volume (e : SEntry) : e.toSession.volume = e.volume := rfl

theorem toSession_isMuted (e : SEntry) : e.toSession.isMuted = e.isMuted := rfl

theorem toSession_controls (e : SEntry) : e.toSession.controls = e.controls := rfl

/-- C3: whenever two or more enumerated native sessions contribute
controls under the same resolved display name, the refreshed directory
holds exactly one session entry with that name; its cached volume is
the update_sessions aggregation formula (the arithmetic mean of the
constituent controls' levels times 100, converted by Python `int`,
i.e. rounded toward zero), its mute flag is the OR over the constituent
controls' mute flags, its controls are exactly the contributed controls
in enumeration order, and a subsequent `set_volume` on that entry fans
the new level out to every one of those controls. -/
theorem c3_same_name_merged (m : AudioManager) (enum : List NativeSession) (nm : String)
    (h2 : 2 ≤ (matchedControls nm enum).length) :
    ((m.update_sessions enum).2.sessions.countP (fun s => s.name == nm) = 1) ∧
    (∃ j : Nat, j < (m.update_sessions enum).2.sessions.length ∧
      ((m.update_sessions enum).2.sessions.getD j dummySession).name = nm ∧
      ((m.update_sessions enum).2.sessions.getD j dummySession).volume
        = volFormula (matchedControls nm enum) ∧
      ((m.update_sessions enum).2.sessions.getD j dummySession).isMuted
        = muteFormula (matchedControls nm enum) ∧
      ((m.update_sessions enum).2.sessions.getD j dummySession).controls
        = matchedControls nm enum ∧
      ∀ p : Int, ((((m.update_sessions enum).2.set_volume (j : Int) p).2.sessions.getD j
          dummySession).controls
        = (matchedControls nm enum).map (fun c => c.SetMasterVolume ((p : ℚ) / 100)))) := by
  have hctrls : ctrlsOf (enum.foldl updateStep []) nm = matchedControls nm enum := by
    have hbase := ctrlsOf_foldl enum [] nm
    simpa [ctrlsOf] using hbase
  have hwf := dictWf_foldl enum []
    ⟨fun e he => absurd he (List.not_mem_nil e), List.nodup_nil⟩
  have hne : matchedControls nm enum ≠ [] := by
    intro hx
    rw [hx] at h2
    simp at h2
  have hfind : ∃ e, (enum.foldl updateStep []).find? (fun x => x.name == nm) = some e := by
    cases hfq : (enum.foldl updateStep []).find? (fun x => x.name == nm) with
    | some e => exact ⟨e, rfl⟩
    | none =>
        exfalso
        apply hne
        rw [← hctrls]
        simp [ctrlsOf, hfq]
  obtain ⟨e, he⟩ := hfind
  have hectrl : e.controls = matchedControls nm enum := by
    rw [← hctrls]
    simp [ctrlsOf, he]
  have hemem := List.mem_of_find?_eq_some he
  have hewf := hwf.1 e hemem
  have hep := List.find?_some he
  simp only [] at hep
  have hename : e.name = nm := eq_of_beq hep
  constructor
  · rw [update_sessions_snd_sessions, List.countP_map]
    have hpredeq : ((fun s : Session => s.name == nm) ∘ SEntry.toSession)
        = (fun x : SEntry => x.name == nm) := rfl
    rw [hpredeq]
    exact countP_name_of_find? _ nm e he hwf.2
  · have hmem2 : e.toSession ∈ (m.update_sessions enum).2.sessions := by
      rw [update_sessions_snd_sessions]
      exact List.mem_map_of_mem _ hemem
    obtain ⟨⟨j, hj⟩, hget⟩ := List.mem_iff_get.mp hmem2
    have hgd : (m.update_sessions enum).2.sessions.getD j dummySession = e.toSession := by
      rw [getD_eq_get _ _ _ hj, hget]
    refine ⟨j, hj, ?_, ?_, ?_, ?_, ?_⟩
    · rw [hgd, toSession_name, hename]
    · rw [hgd, toSession_volume, hewf.2.1, hectrl]
    · rw [hgd, toSession_isMuted, hewf.2.2.1, hectrl]
    · rw [hgd, toSession_controls, hectrl]
    · intro p
      have hsv := set_volume_in_range (m.update_sessions enum).2 j p hj
      simp only [hsv]
      rw [getD_set_self _ _ _ _ hj]
      show ((m.update_sessions enum).2.sessions.getD j dummySession).controls.map
        (fun c => c.SetMasterVolume ((p : ℚ) / 100)) = _
      rw [hgd, toSession_controls, hectrl]

def exControlA : Control :=
  { level := 1/2, muted := false, setVolumeFails := false, setMuteFails := false }

def exControlB : Control :=
  { level := 1/4, muted := true, setVolumeFails := false, setMuteFails := false }

def exSessionA : NativeSession :=
  { hasProcessName := true, pid := 11, control := some exControlA,
    resolvedName := "Example.exe", icon := some "iconA" }

def exSessionB : NativeSession :=
  { hasProcessName := true, pid := 22, control := some exControlB,
    resolvedName := "Example.exe", icon := none }

/-- C3 witness: two native sessions resolving to the same name are
merged into a single directory entry. -/
theorem c3_same_name_merged_witness :
    (2 ≤ (matchedControls "Example.exe" [exSessionA, exSessionB]).length) ∧
    ((emptyManager.update_sessions [exSessionA, exSessionB]).2.sessions.countP
      (fun s => s.name == "Example.exe") = 1) :=
  ⟨by decide,
    (c3_same_name_merged emptyManager [exSessionA, exSessionB] "Example.exe" (by decide)).1⟩

end SoundBoard
